import Mathlib

/-
Verification of the contract-management spreadsheet ingestion pipeline:
date parsing (utils/dateUtils.ts `safeParseDate`, utils/excelUtils.ts
`parseExcelDate`), row normalization (`processExcelData`), file-level
ingestion (`readExcelFile` / `handleImportExcel`), and the status badge
classification (`getStatusBadge`).

Modelling conventions:
- A JS `Date` instant is an `Int` of milliseconds since 1970-01-01T00:00
  (the ECMAScript time value).  The spec treats all dates as local
  calendar dates with no timezone, so local time = UTC in the model.
- Spreadsheet cell values are the closed variant `CellValue`
  (absent / string / number / boolean / native date).  Numeric cells are
  modelled on the integer fragment of JS numbers; `NaN` outcomes of the
  JS coercions are modelled as `none` of `Option Int`.
- The implementation-defined free-form `new Date(string)` fallback of the
  host is a parameter `np : String → Option Int` of both parsers; every
  theorem quantifies over it, so nothing proved depends on its behaviour.
- Calendar arithmetic (civil date ↔ day number) uses the standard
  proleptic-Gregorian algorithms; `addMonths`, `differenceInDays` and
  `differenceInMonths` model the date-fns primitives the source calls.
-/

namespace ContractPipeline

/-! ## Calendar arithmetic -/

/-- Milliseconds per day, as in the source's `24 * 60 * 60 * 1000`. -/
def msPerDay : Int := 86400000

/-- Gregorian leap-year rule. -/
def isLeapYear (y : Int) : Bool :=
  (y % 4 == 0 && y % 100 != 0) || (y % 400 == 0)

/-- Number of days in a month of the Gregorian calendar. -/
def monthLen (y m : Int) : Int :=
  if m = 2 then (if isLeapYear y then 29 else 28)
  else if m = 4 ∨ m = 6 ∨ m = 9 ∨ m = 11 then 30 else 31

/-- Day number (days since 1970-01-01) of a civil year/month/day.
The month must be in 1..12; the day may exceed the month length, in which
case the date rolls over day-by-day (the formula is affine in `d`),
exactly like the ECMAScript `MakeDay` used by `new Date(y, m, d)`. -/
def daysFromCivil (y m d : Int) : Int :=
  let y1 := if m ≤ 2 then y - 1 else y
  let era := Int.fdiv y1 400
  let yoe := y1 - era * 400
  let mp := Int.emod (m + 9) 12
  let doy := Int.fdiv (153 * mp + 2) 5 + d - 1
  let doe := yoe * 365 + Int.fdiv yoe 4 - Int.fdiv yoe 100 + doy
  era * 146097 + doe - 719468

/-- A civil calendar date. -/
structure Civil where
  y : Int
  m : Int
  d : Int
deriving DecidableEq

/-- Civil date of a day number (inverse of `daysFromCivil` on valid dates). -/
def daysToCivil (z0 : Int) : Civil :=
  let z := z0 + 719468
  let era := Int.fdiv z 146097
  let doe := z - era * 146097
  let yoe := Int.fdiv (doe - Int.fdiv doe 1460 + Int.fdiv doe 36524 - Int.fdiv doe 146096) 365
  let y := yoe + era * 400
  let doy := doe - (365 * yoe + Int.fdiv yoe 4 - Int.fdiv yoe 100)
  let mp := Int.fdiv (5 * doy + 2) 153
  let d := doy - Int.fdiv (153 * mp + 2) 5 + 1
  let m := if mp < 10 then mp + 3 else mp - 9
  { y := if m ≤ 2 then y + 1 else y, m := m, d := d }

/-- Time value (ms) of local midnight of a civil date. -/
def msOfCivil (y m d : Int) : Int := msPerDay * daysFromCivil y m d

/-- Time value produced by `new Date(year, monthIndex, day)`: years 0..99
are offset by 1900, the 0-based month index rolls over into adjacent
years, and an out-of-range day rolls over into adjacent months. -/
def jsMakeDateMs (y mIdx d : Int) : Int :=
  let yy := if 0 ≤ y ∧ y ≤ 99 then y + 1900 else y
  msPerDay * daysFromCivil (yy + Int.fdiv mIdx 12) (Int.emod mIdx 12 + 1) d

/-- ECMAScript time-value range check: a `Date` is valid (`!isNaN(t)`)
iff its time value is within ±8.64e15 ms of the epoch. -/
def jsValidMs (t : Int) : Bool :=
  -8640000000000000 ≤ t && t ≤ 8640000000000000

/-- Models date-fns `addMonths(date, amount)`: move by calendar months,
clamping the day-of-month to the target month's length
(Jan 31 + 1 month = Feb 28/29), keeping the time of day. -/
def addMonths (t n : Int) : Int :=
  let day := Int.fdiv t msPerDay
  let rem := Int.emod t msPerDay
  let c := daysToCivil day
  let total := c.y * 12 + (c.m - 1) + n
  let y2 := Int.fdiv total 12
  let m2 := Int.emod total 12 + 1
  let d2 := min c.d (monthLen y2 m2)
  msPerDay * daysFromCivil y2 m2 d2 + rem

/-- Models date-fns `differenceInDays(left, right)`: the number of full
day periods between the instants, truncated toward zero. -/
def differenceInDays (a b : Int) : Int := Int.tdiv (a - b) msPerDay

/-- Models date-fns `differenceInCalendarMonths(left, right)`:
month-slot difference of the two calendar dates. -/
def calendarMonths (a b : Int) : Int :=
  let ca := daysToCivil (Int.fdiv a msPerDay)
  let cb := daysToCivil (Int.fdiv b msPerDay)
  12 * (ca.y - cb.y) + (ca.m - cb.m)

/-- Full calendar months from `lo` forward to `hi`, for `lo ≤ hi`: the
calendar-month difference, minus one when the last month is not complete.
The `max 0` clamps are no-ops when `lo ≤ hi` (the month-slot difference
of ordered instants is nonnegative); they make the function total. -/
def fullMonthsBetween (hi lo : Int) : Int :=
  let n := max 0 (calendarMonths hi lo)
  if addMonths lo n ≤ hi then n else max 0 (n - 1)

/-- Models date-fns `differenceInMonths(left, right)`: signed number of
full calendar months between the instants. -/
def differenceInMonths (a b : Int) : Int :=
  if b ≤ a then fullMonthsBetween a b else - fullMonthsBetween b a

/-! ## Cell values and JS coercions -/

/-- A spreadsheet cell value as delivered by `sheet_to_json`: absent key,
string, number, boolean, or native date object.  An out-of-range `dateV`
time value stands for an Invalid Date object. -/
inductive CellValue where
  | missing
  | str (s : String)
  | num (n : Int)
  | boolV (b : Bool)
  | dateV (t : Int)
deriving DecidableEq

/-- JS truthiness of a cell value (`undefined`, `""`, `0` and `false`
are falsy; every object, every other number and string are truthy). -/
def cellTruthy : CellValue → Bool
  | .missing => false
  | .str s => s ≠ ""
  | .num n => n ≠ 0
  | .boolV b => b
  | .dateV _ => true

/-- Whitespace recognized by `String.prototype.trim` (common subset). -/
def isJsSpace (c : Char) : Bool :=
  c = ' ' || c = '\t' || c = '\n' || c = '\r'

/-- Models `s.trim()`. -/
def jsTrim (s : String) : String :=
  ⟨((s.data.dropWhile isJsSpace).reverse.dropWhile isJsSpace).reverse⟩

/-- Models `s.includes(c)` for a single character. -/
def jsContains (s : String) (c : Char) : Bool := s.data.contains c

/-- Decimal digit test. -/
def isDigitCh (c : Char) : Bool := '0' ≤ c && c ≤ '9'

/-- Value of a decimal digit string (most significant first). -/
def digitsVal : List Char → Int → Int
  | [], acc => acc
  | c :: cs, acc => digitsVal cs (acc * 10 + ((c.toNat : Int) - 48))

/-- Models `parseInt(s)` (radix 10, no exponent/hex forms): skip leading
whitespace, optional sign, then the longest leading digit run; `NaN`
(here `none`) when no digits are found. -/
def parseIntJS (s : String) : Option Int :=
  let cs := s.data.dropWhile isJsSpace
  let signed : Int × List Char :=
    match cs with
    | '-' :: rest => (-1, rest)
    | '+' :: rest => (1, rest)
    | _ => (1, cs)
  let ds := signed.2.takeWhile isDigitCh
  if ds.isEmpty then none else some (signed.1 * digitsVal ds 0)

/-- Models `Number(s)` on the integer fragment of JS number syntax:
a blank string is 0, an optionally signed digit string is its value,
anything else is `NaN` (`none`). -/
def jsNumberOfString (s : String) : Option Int :=
  let cs := (jsTrim s).data
  match cs with
  | [] => some 0
  | _ =>
    let signed : Int × List Char :=
      match cs with
      | '-' :: rest => (-1, rest)
      | '+' :: rest => (1, rest)
      | _ => (1, cs)
    if !signed.2.isEmpty && signed.2.all isDigitCh then
      some (signed.1 * digitsVal signed.2 0)
    else none

/-- Models the `Number(x)` coercion on a cell value (`none` is `NaN`):
`undefined` is `NaN`, booleans are 0/1, a date is its time value. -/
def jsNumberOfCell : CellValue → Option Int
  | .missing => none
  | .str s => jsNumberOfString s
  | .num n => some n
  | .boolV b => some (if b then 1 else 0)
  | .dateV t => some t

/-- Models the `String(x)` coercion on a cell value.  The rendering of a
date cell is not load-bearing anywhere in the pipeline. -/
def jsStringOfCell : CellValue → String
  | .missing => "undefined"
  | .str s => s
  | .num n => toString n
  | .boolV b => if b then "true" else "false"
  | .dateV t => toString t

/-! ## dateUtils.ts — `safeParseDate`

`safeParseDate` dispatches on the runtime type of the cell: falsy values
are absent; a `Date` object is validated and returned; a number is fed
to `new Date(number)` (a millisecond timestamp); a string is trimmed,
ISO-like strings (containing `T` or `Z`) go through `parseISO`, then an
ordered list of date-fns format patterns is tried, then the free-form
`new Date(string)` fallback (the parameter `np`). -/

/-- The seven date-fns layouts of the `formats` array in dateUtils.ts,
in source order. -/
inductive DateFmt where
  | ymdDash
  | dmyDot
  | mdySlash
  | dmySlash
  | ymdSlash
  | ymdDashTime
  | dmyDotTime
deriving DecidableEq

/-- Field order of the three date components of a layout. -/
inductive FieldOrder where
  | ymd
  | dmy
  | mdy
deriving DecidableEq

/-- Field order, separator and time-suffix flag of each layout. -/
def fmtSpec : DateFmt → FieldOrder × Char × Bool
  | .ymdDash => (.ymd, '-', false)
  | .dmyDot => (.dmy, '.', false)
  | .mdySlash => (.mdy, '/', false)
  | .dmySlash => (.dmy, '/', false)
  | .ymdSlash => (.ymd, '/', false)
  | .ymdDashTime => (.ymd, '-', true)
  | .dmyDotTime => (.dmy, '.', true)

/-- The `formats` list of dateUtils.ts:
`["yyyy-MM-dd", "dd.MM.yyyy", "MM/dd/yyyy", "dd/MM/yyyy", "yyyy/MM/dd",
"yyyy-MM-dd HH:mm:ss", "dd.MM.yyyy HH:mm:ss"]`. -/
def fmtList : List DateFmt :=
  [.ymdDash, .dmyDot, .mdySlash, .dmySlash, .ymdSlash, .ymdDashTime, .dmyDotTime]

/-- Consume 1 to `k` leading digits greedily (date-fns `parseNDigits`). -/
def takeUpTo (k : Nat) (cs : List Char) : Option (Int × List Char) :=
  let ds := (cs.takeWhile isDigitCh).take k
  if ds.isEmpty then none else some (digitsVal ds 0, cs.drop ds.length)

/-- Consume one expected literal character. -/
def expectChar (c : Char) : List Char → Option (List Char)
  | x :: xs => if x = c then some xs else none
  | [] => none

/-- Models date-fns `parse(s, format, referenceDate)` for the layouts in
`fmtList`: each numeric token consumes 1–2 digits (1–4 for `yyyy`),
literal separators must match, the whole string must be consumed, and
the fields are validated (year ≥ 1, month 1–12, day within the month,
HH ≤ 23, mm/ss ≤ 59).  A date-only layout yields local midnight. -/
def parseFmt (f : DateFmt) (s : String) : Option Int := do
  let spec := fmtSpec f
  let sep := spec.2.1
  let widths : Nat × Nat × Nat :=
    match spec.1 with
    | .ymd => (4, 2, 2)
    | _ => (2, 2, 4)
  let (n1, cs) ← takeUpTo widths.1 s.data
  let cs ← expectChar sep cs
  let (n2, cs) ← takeUpTo widths.2.1 cs
  let cs ← expectChar sep cs
  let (n3, cs) ← takeUpTo widths.2.2 cs
  let ymd : Int × Int × Int :=
    match spec.1 with
    | .ymd => (n1, n2, n3)
    | .dmy => (n3, n2, n1)
    | .mdy => (n3, n1, n2)
  let timed : Int × List Char ←
    if spec.2.2 then do
      let cs ← expectChar ' ' cs
      let (h, cs) ← takeUpTo 2 cs
      let cs ← expectChar ':' cs
      let (mi, cs) ← takeUpTo 2 cs
      let cs ← expectChar ':' cs
      let (sec, cs) ← takeUpTo 2 cs
      if h ≤ 23 ∧ mi ≤ 59 ∧ sec ≤ 59 then
        pure ((((h * 60 + mi) * 60 + sec) * 1000, cs))
      else none
    else pure ((0, cs))
  let y := ymd.1
  let m := ymd.2.1
  let d := ymd.2.2
  if timed.2 = [] ∧ 1 ≤ y ∧ 1 ≤ m ∧ m ≤ 12 ∧ 1 ≤ d ∧ d ≤ monthLen y m then
    some (msOfCivil y m d + timed.1)
  else none

/-- The format loop of `safeParseDate`: try each layout in `fmtList`
order, returning the first valid parse (the loop's early `return`). -/
def tryFormats (t : String) : Option Int :=
  fmtList.findSome? (fun f => parseFmt f t)

/-- Models date-fns `parseISO` on the forms the pipeline can meet:
`yyyy-MM-dd`, optionally followed by `THH:mm`, `THH:mm:ss` or
`THH:mm:ss.SSS`, optionally suffixed `Z`; fields are validated. -/
def parseISOLike (t : String) : Option Int := do
  let (y, cs) ← takeUpTo 4 t.data
  let cs ← expectChar '-' cs
  let (m, cs) ← takeUpTo 2 cs
  let cs ← expectChar '-' cs
  let (d, cs) ← takeUpTo 2 cs
  let timed : Int × List Char ←
    match cs with
    | 'T' :: cs => do
      let (h, cs) ← takeUpTo 2 cs
      let cs ← expectChar ':' cs
      let (mi, cs) ← takeUpTo 2 cs
      let withSec : Int × List Char ←
        match cs with
        | ':' :: cs => do
          let (sec, cs) ← takeUpTo 2 cs
          let withMs : Int × List Char ←
            match cs with
            | '.' :: cs => do
              let (ms, cs) ← takeUpTo 3 cs
              pure ((ms, cs))
            | _ => pure (((0 : Int), cs))
          if sec ≤ 59 then pure ((sec * 1000 + withMs.1, withMs.2)) else none
        | _ => pure (((0 : Int), cs))
      if h ≤ 23 ∧ mi ≤ 59 then
        pure (((h * 60 + mi) * 60000 + withSec.1, withSec.2))
      else none
    | _ => pure (((0 : Int), cs))
  let rest ←
    match timed.2 with
    | ['Z'] => pure ([] : List Char)
    | cs => pure cs
  if rest = [] ∧ 1 ≤ m ∧ m ≤ 12 ∧ 1 ≤ d ∧ d ≤ monthLen y m then
    some (msOfCivil y m d + timed.1)
  else none

/-- The format loop followed by the free-form `new Date(string)` native
fallback `np` (host behaviour, a parameter of the model). -/
def tryFormatsThenNative (np : String → Option Int) (t : String) : Option Int :=
  match tryFormats t with
  | some d => some d
  | none => np t

/-- dateUtils.ts `safeParseDate(dateInput)`.  `np` models the host's
free-form `new Date(string)` parsing used as the last resort. -/
def safeParseDate (np : String → Option Int) (v : CellValue) : Option Int :=
  if cellTruthy v = false then none
  else
    match v with
    | .dateV t => if jsValidMs t then some t else none
    | .num n => if jsValidMs n then some n else none
    | .str s =>
      let t := jsTrim s
      if t = "" then none
      else if jsContains t 'T' || jsContains t 'Z' then
        match parseISOLike t with
        | some d => some d
        | none => tryFormatsThenNative np t
      else tryFormatsThenNative np t
    | _ => none

/-! ## excelUtils.ts — `parseExcelDate` -/

/-- Shape test for the regex `^\d{4}-\d{2}-\d{2}$`. -/
def shapeISO : List Char → Bool
  | [a, b, c, d, s1, e, f, s2, g, h] =>
    isDigitCh a && isDigitCh b && isDigitCh c && isDigitCh d && s1 == '-' &&
    isDigitCh e && isDigitCh f && s2 == '-' && isDigitCh g && isDigitCh h
  | _ => false

/-- Shape test for `^\d{2}sep\d{2}sep\d{4}$` (`sep` is `.` or `/`). -/
def shapeSep (sep : Char) : List Char → Bool
  | [a, b, s1, c, d, s2, e, f, g, h] =>
    isDigitCh a && isDigitCh b && s1 == sep && isDigitCh c && isDigitCh d &&
    s2 == sep && isDigitCh e && isDigitCh f && isDigitCh g && isDigitCh h
  | _ => false

/-- excelUtils.ts `parseExcelDate(dateValue)`.  The numeric branch is
`new Date(1900, 0, 1)` plus `(value - 1)` days; the ISO-shaped string
branch is `new Date(trimmed + "T00:00:00")` (ECMAScript ISO parsing,
which validates month and day); the German and US shaped branches build
`new Date(year, month - 1, day)` with no range validation; `np` is the
free-form `new Date(string)` fallback. -/
def parseExcelDate (np : String → Option Int) (v : CellValue) : Option Int :=
  if cellTruthy v = false then none
  else
    match v with
    | .dateV t => if jsValidMs t then some t else none
    | .num n =>
      let t := jsMakeDateMs 1900 0 1 + (n - 1) * msPerDay
      if jsValidMs t then some t else none
    | .str s =>
      let t := jsTrim s
      if t = "" then none
      else if shapeISO t.data then
        match t.data with
        | [a, b, c, d, _, e, f, _, g, h] =>
          let y := digitsVal [a, b, c, d] 0
          let m := digitsVal [e, f] 0
          let dd := digitsVal [g, h] 0
          if 1 ≤ m ∧ m ≤ 12 ∧ 1 ≤ dd ∧ dd ≤ monthLen y m then
            some (msOfCivil y m dd)
          else none
        | _ => none
      else if shapeSep '.' t.data then
        match t.data with
        | [a, b, _, c, d, _, e, f, g, h] =>
          let dd := digitsVal [a, b] 0
          let m := digitsVal [c, d] 0
          let y := digitsVal [e, f, g, h] 0
          let t2 := jsMakeDateMs y (m - 1) dd
          if jsValidMs t2 then some t2 else none
        | _ => none
      else if shapeSep '/' t.data then
        match t.data with
        | [a, b, _, c, d, _, e, f, g, h] =>
          let m := digitsVal [a, b] 0
          let dd := digitsVal [c, d] 0
          let y := digitsVal [e, f, g, h] 0
          let t2 := jsMakeDateMs y (m - 1) dd
          if jsValidMs t2 then some t2 else none
        | _ => none
      else np t
    | _ => none

/-! ## excelUtils.ts — `processExcelData` and `readExcelFile` -/

/-- A raw spreadsheet row.  `sheet_to_json` yields a string-keyed
mapping; the pipeline reads exactly the keys `Name`, `Status`,
`Startdatum` and `Laufzeit in M`, so the row is modelled by those four
cells (any other key is never consulted). -/
structure RawRow where
  name : CellValue
  status : CellValue
  startdatum : CellValue
  laufzeitInM : CellValue
deriving DecidableEq

/-- The `ProcessedContractData` record of excelUtils.ts.  The source
stores `startDate`/`endDate` as ISO strings via `toISOString()`; the
model keeps the underlying instants (`toISOString` is injective on
valid dates and is undone by `safeParseISO` downstream). -/
structure Contract where
  id : Nat
  name : String
  status : String
  startDate : Option Int
  endDate : Option Int
  restDays : Int
  laufzeit : Int
  abgelaufeneMonate : Int
deriving DecidableEq

/-- The duration coercion of `processExcelData`:
`typeof v === "string" ? parseInt(v) || 0 : Number(v) || 0`. -/
def durationOf (row : RawRow) : Int :=
  match row.laufzeitInM with
  | CellValue.str s => (parseIntJS s).getD 0
  | c => (jsNumberOfCell c).getD 0

/-- One iteration of the `data.map` in `processExcelData`.  `now` is the
instant the two `new Date()` calls inside the function body observe
(the ambient clock at call time). -/
def normalizeRow (np : String → Option Int) (item : RawRow) (index : Nat)
    (now : Int) : Contract :=
  let startDate := parseExcelDate np item.startdatum
  let durationMonths := durationOf item
  let endDate :=
    match startDate with
    | some s => some (addMonths s durationMonths)
    | none => none
  let restDays :=
    match endDate with
    | some e => differenceInDays e now
    | none => 0
  let elapsed :=
    match startDate with
    | some s => differenceInMonths now s
    | none => 0
  { id := index + 1,
    name := if cellTruthy item.name then jsStringOfCell item.name else "Unbenannt",
    status := if cellTruthy item.status then jsStringOfCell item.status else "online",
    startDate := startDate,
    endDate := endDate,
    restDays := restDays,
    laufzeit := durationMonths,
    abgelaufeneMonate := max 0 elapsed }

/-- excelUtils.ts `processExcelData(data)`.  The reference instant `now`
is not a parameter in the source: it is read from the ambient clock by
`new Date()` inside the map body. -/
def processExcelData (np : String → Option Int) (data : List RawRow)
    (now : Int) : List Contract :=
  data.mapIdx (fun i item => normalizeRow np item i now)

/-- excelUtils.ts `readExcelFile(file)`.  The `XLSX.read` /
`sheet_to_json` decode of the binary payload is the `decoded` input:
a decode failure is the caught exception, which rejects the promise;
a successful decode yields the raw rows, which are processed. -/
def readExcelFile (np : String → Option Int)
    (decoded : Except String (List RawRow)) (now : Int) :
    Except String (List Contract) :=
  match decoded with
  | .error e => .error e
  | .ok rows => .ok (processExcelData np rows now)

/-! ## App.tsx — import handler and badge classification -/

/-- The component state touched by `handleImportExcel`. -/
structure AppState where
  rows : List Contract
  error : Option String
  isLoading : Bool
deriving DecidableEq

/-- App.tsx `handleImportExcel`: set loading, clear the error, await
`readExcelFile`; on success replace `rows`, on failure set the error
message and leave `rows` untouched; finally clear the loading flag. -/
def handleImportExcel (s : AppState)
    (result : Except String (List Contract)) : AppState :=
  match result with
  | .ok newRows => { s with rows := newRows, error := none, isLoading := false }
  | .error _ =>
    { s with
      error := some "Fehler beim Laden der Excel-Datei. Bitte überprüfen Sie das Format.",
      isLoading := false }

/-- The four visual classes `getStatusBadge` can render. -/
inductive BadgeClass where
  | expired
  | dueSoon
  | activeOnline
  | other
deriving DecidableEq

/-- App.tsx `getStatusBadge(status, restDays)`: the guards in source
order — `restDays <= 0` (Abgelaufen), `restDays <= 30` (Faellig),
`status === "online"` (Online), otherwise the pass-through badge. -/
def getStatusBadge (status : String) (restDays : Int) : BadgeClass :=
  if restDays ≤ 0 then .expired
  else if restDays ≤ 30 then .dueSoon
  else if status = "online" then .activeOnline
  else .other

/-- Native-fallback instantiation used by concrete witnesses: a host
whose free-form `new Date(string)` parsing accepts nothing.  Every
concrete input below is decided before the native fallback is reached,
so this choice is never load-bearing. -/
def noNativeParse : String → Option Int := fun _ => none

/-! ## Shared lemmas -/

/-- The full-months count is never negative (the clamps in its
definition are no-ops on ordered inputs but make this unconditional). -/
theorem fullMonthsBetween_nonneg (a b : Int) : 0 ≤ fullMonthsBetween a b := by
  unfold fullMonthsBetween
  dsimp only
  split <;> exact le_max_left 0 _

/-! ## Claims -/

/-- Example row for the end-date invariant: the spec's worked example
`{Name: "Zoom Pro", Status: "online", Startdatum: "2024-03-01",
"Laufzeit in M": 12}`. -/
def rowZoomEx : RawRow :=
  { name := .str "Zoom Pro", status := .str "online",
    startdatum := .str "2024-03-01", laufzeitInM := .num 12 }

/-- C1: for every normalized record, `endDate` is present iff
`startDate` is present; when the start-date cell parses, the end date is
the start date plus `durationMonths` calendar months, and when it fails
to parse the end date is null. -/
theorem endDate_present_iff_startDate (np : String → Option Int)
    (row : RawRow) (i : Nat) (now : Int) :
    ((normalizeRow np row i now).endDate.isSome
        ↔ (normalizeRow np row i now).startDate.isSome)
    ∧ (∀ s : Int, (normalizeRow np row i now).startDate = some s →
        (normalizeRow np row i now).endDate = some (addMonths s (durationOf row)))
    ∧ ((normalizeRow np row i now).startDate = none →
        (normalizeRow np row i now).endDate = none) := by
  unfold normalizeRow
  cases h : parseExcelDate np row.startdatum <;> simp [h]

/-- C1 witness: on the spec's example row the theorem yields the
concrete end date 2024-03-01 plus 12 months. -/
theorem endDate_present_iff_startDate_witness :
    (normalizeRow noNativeParse rowZoomEx 3 (msOfCivil 2024 6 1)).endDate
      = some (addMonths (msOfCivil 2024 3 1) 12) := by
  have h := (endDate_present_iff_startDate noNativeParse rowZoomEx 3
      (msOfCivil 2024 6 1)).2.1 (msOfCivil 2024 3 1) (by decide)
  rw [h]
  decide

/-- C2 counterexample: the serial 1 decodes to 1900-01-01, but the
claimed 1899-12-30 epoch convention would give 1899-12-31 — the code's
epoch is one day later than the claim's. -/
theorem serial_epoch_counterexample :
    parseExcelDate noNativeParse (CellValue.num 1) = some (msOfCivil 1900 1 1)
    ∧ msOfCivil 1900 1 1 ≠ msOfCivil 1899 12 30 + 1 * msPerDay := by
  decide

/-- C2 (amended): for every nonzero numeric cell value `v`,
`parseExcelDate` decodes `v` as the calendar date 1899-12-31 plus `v`
days (the source computes 1900-01-01 plus `v - 1` days), one day later
than the 1899-12-30 spreadsheet convention, while `safeParseDate`
instead interprets `v` as a millisecond timestamp since 1970-01-01. -/
theorem numeric_cell_parsing (np : String → Option Int) :
    (∀ v : Int, v ≠ 0 →
      parseExcelDate np (CellValue.num v)
        = (if jsValidMs (msOfCivil 1899 12 31 + v * msPerDay) then
            some (msOfCivil 1899 12 31 + v * msPerDay) else none))
    ∧ (∀ v : Int, v ≠ 0 →
      safeParseDate np (CellValue.num v) = (if jsValidMs v then some v else none)) := by
  constructor
  · intro v hv
    have hkey : jsMakeDateMs 1900 0 1 + (v - 1) * msPerDay
        = msOfCivil 1899 12 31 + v * msPerDay := by
      have h1 : jsMakeDateMs 1900 0 1 = msOfCivil 1899 12 31 + msPerDay := by decide
      rw [h1]; ring
    simp [parseExcelDate, cellTruthy, hv, hkey]
  · intro v hv
    simp [safeParseDate, cellTruthy, hv]

/-- C2 witness: the amended formula evaluated at serial 2 and at the
one-day millisecond timestamp. -/
theorem numeric_cell_parsing_witness :
    parseExcelDate noNativeParse (CellValue.num 2) = some (msOfCivil 1900 1 2)
    ∧ safeParseDate noNativeParse (CellValue.num 86400000) = some 86400000 := by
  constructor
  · have h := (numeric_cell_parsing noNativeParse).1 2 (by decide)
    rw [h]; decide
  · have h := (numeric_cell_parsing noNativeParse).2 86400000 (by decide)
    rw [h]; decide

/-- Row whose duration cell is the number −5. -/
def rowNegDuration : RawRow :=
  { name := .missing, status := .missing,
    startdatum := .missing, laufzeitInM := .num (-5) }

/-- Row whose duration cell is absent. -/
def rowNoDuration : RawRow :=
  { name := .missing, status := .missing,
    startdatum := .missing, laufzeitInM := .missing }

/-- C3 counterexample: a duration cell of −5 produces a record with
`durationMonths = -5`, not the claimed clamped 0. -/
theorem duration_clamp_counterexample :
    (normalizeRow noNativeParse rowNegDuration 0 0).laufzeit = -5
    ∧ ¬ (normalizeRow noNativeParse rowNegDuration 0 0).laufzeit = 0 := by
  decide

/-- C3 (amended): `durationMonths` defaults to 0 when the duration cell
is absent or a non-numeric string, and numeric values — including
negative ones — pass through unclamped (a cell of −5 yields −5); the
row is never rejected (the pipeline emits one record per input row). -/
theorem duration_defaults (row : RawRow) :
    (row.laufzeitInM = CellValue.missing → durationOf row = 0)
    ∧ (∀ n : Int, row.laufzeitInM = CellValue.num n → durationOf row = n)
    ∧ (∀ s : String, row.laufzeitInM = CellValue.str s → parseIntJS s = none →
        durationOf row = 0)
    ∧ (∀ np i now, (normalizeRow np row i now).laufzeit = durationOf row)
    ∧ (∀ np data now, (processExcelData np data now).length = data.length) := by
  refine ⟨?_, ?_, ?_, ?_, ?_⟩
  · intro h; simp [durationOf, h, jsNumberOfCell]
  · intro n h; simp [durationOf, h, jsNumberOfCell]
  · intro s h hs; simp [durationOf, h, hs]
  · intro np i now; simp [normalizeRow]
  · intro np data now; simp [processExcelData]

/-- C3 witness: the amended defaults evaluated on the −5 row and on a
row with an absent duration cell. -/
theorem duration_defaults_witness :
    durationOf rowNegDuration = -5 ∧ durationOf rowNoDuration = 0 :=
  ⟨(duration_defaults rowNegDuration).2.1 (-5) rfl,
   (duration_defaults rowNoDuration).1 rfl⟩

/-- Row with a start date in 2030, used against earlier reference
instants. -/
def rowFutureStart : RawRow :=
  { name := .str "F", status := .missing,
    startdatum := .str "2030-01-01", laufzeitInM := .num 12 }

/-- C4: `elapsedMonths` is clamped to be non-negative; a start date
after the reference instant yields 0, and an unparseable start date
yields 0. -/
theorem elapsedMonths_clamped (np : String → Option Int) (row : RawRow)
    (i : Nat) (now : Int) :
    0 ≤ (normalizeRow np row i now).abgelaufeneMonate
    ∧ (parseExcelDate np row.startdatum = none →
        (normalizeRow np row i now).abgelaufeneMonate = 0)
    ∧ (∀ s : Int, parseExcelDate np row.startdatum = some s → now < s →
        (normalizeRow np row i now).abgelaufeneMonate = 0) := by
  refine ⟨?_, ?_, ?_⟩
  · unfold normalizeRow
    cases parseExcelDate np row.startdatum <;> simp
  · intro h; simp [normalizeRow, h]
  · intro s hs hlt
    have hnle : ¬ s ≤ now := not_le.mpr hlt
    have hfm : -(fullMonthsBetween s now) ≤ 0 := by
      have := fullMonthsBetween_nonneg s now
      omega
    simp [normalizeRow, hs, differenceInMonths, hnle, max_eq_left hfm]

/-- C4 witness: with the clock at 2024-01-01 and a start date of
2030-01-01 the elapsed months are exactly 0. -/
theorem elapsedMonths_clamped_witness :
    (normalizeRow noNativeParse rowFutureStart 0 (msOfCivil 2024 1 1)).abgelaufeneMonate
      = 0 :=
  (elapsedMonths_clamped noNativeParse rowFutureStart 0 (msOfCivil 2024 1 1)).2.2
    (msOfCivil 2030 1 1) (by decide) (by decide)

/-- C5: both date parsers are total functions into `Option` (no escape
for exceptions exists in the model because every branch of the source
catches and returns null), and every absent, empty or whitespace-only
input parses to null. -/
theorem parser_total_blank (np : String → Option Int) (v : CellValue)
    (h : v = CellValue.missing ∨ ∃ s, v = CellValue.str s ∧ jsTrim s = "") :
    safeParseDate np v = none ∧ parseExcelDate np v = none := by
  rcases h with h | ⟨s, rfl, hs⟩
  · subst h; exact ⟨rfl, rfl⟩
  · by_cases hempty : s = ""
    · subst hempty; exact ⟨rfl, rfl⟩
    · constructor <;> simp [safeParseDate, parseExcelDate, cellTruthy, hempty, hs]

/-- C5 witness: a whitespace-only string and an absent cell both parse
to null in both parsers. -/
theorem parser_total_blank_witness :
    safeParseDate noNativeParse (CellValue.str "   ") = none
    ∧ parseExcelDate noNativeParse (CellValue.str "   ") = none
    ∧ safeParseDate noNativeParse CellValue.missing = none :=
  ⟨(parser_total_blank noNativeParse _ (Or.inr ⟨"   ", rfl, by decide⟩)).1,
   (parser_total_blank noNativeParse _ (Or.inr ⟨"   ", rfl, by decide⟩)).2,
   (parser_total_blank noNativeParse _ (Or.inl rfl)).1⟩

/-- C6: when the spreadsheet decode fails, the import surfaces an error
and leaves the previously loaded record collection unchanged. -/
theorem ingestion_failure_preserves_rows (s : AppState)
    (np : String → Option Int) (dec : Except String (List RawRow))
    (now : Int) (e : String) (h : dec = Except.error e) :
    (handleImportExcel s (readExcelFile np dec now)).rows = s.rows
    ∧ (handleImportExcel s (readExcelFile np dec now)).error.isSome = true := by
  subst h; exact ⟨rfl, rfl⟩

/-- A populated app state used by the ingestion-failure witness. -/
def loadedState : AppState :=
  { rows := [normalizeRow noNativeParse rowZoomEx 0 (msOfCivil 2024 6 1)],
    error := none, isLoading := true }

/-- C6 witness: a concrete decode failure against a loaded state leaves
the rows identical and sets the error flag. -/
theorem ingestion_failure_preserves_rows_witness :
    (handleImportExcel loadedState
        (readExcelFile noNativeParse (Except.error "decode failure") 0)).rows
      = loadedState.rows
    ∧ (handleImportExcel loadedState
        (readExcelFile noNativeParse (Except.error "decode failure") 0)).error.isSome
      = true :=
  ingestion_failure_preserves_rows loadedState noNativeParse _ 0 "decode failure" rfl

/-- C7: the badge classification checks expiry first — `restDays ≤ 0`
is `expired` even for status "online"; only with `restDays > 0` are the
due-soon (≤ 30) and active-online (status "online", > 30) classes
reachable. -/
theorem badge_classification (status : String) (restDays : Int) :
    (restDays ≤ 0 → getStatusBadge status restDays = BadgeClass.expired)
    ∧ (0 < restDays → restDays ≤ 30 → getStatusBadge status restDays = BadgeClass.dueSoon)
    ∧ (30 < restDays → status = "online" →
        getStatusBadge status restDays = BadgeClass.activeOnline)
    ∧ (30 < restDays → status ≠ "online" →
        getStatusBadge status restDays = BadgeClass.other) := by
  unfold getStatusBadge
  refine ⟨fun h => by rw [if_pos h], fun h1 h2 => ?_, fun h1 h2 => ?_, fun h1 h2 => ?_⟩
  · rw [if_neg (by omega), if_pos h2]
  · rw [if_neg (by omega), if_neg (by omega), if_pos h2]
  · rw [if_neg (by omega), if_neg (by omega), if_neg h2]

/-- C7 witness: the four classes at concrete boundary inputs, including
an "online" record with `restDays = 0` classified expired. -/
theorem badge_classification_witness :
    getStatusBadge "online" 0 = BadgeClass.expired
    ∧ getStatusBadge "online" 30 = BadgeClass.dueSoon
    ∧ getStatusBadge "online" 31 = BadgeClass.activeOnline
    ∧ getStatusBadge "offline" 31 = BadgeClass.other :=
  ⟨(badge_classification "online" 0).1 (by decide),
   (badge_classification "online" 30).2.1 (by decide) (by decide),
   (badge_classification "online" 31).2.2.1 (by decide) rfl,
   (badge_classification "offline" 31).2.2.2 (by decide) (by decide)⟩

/-- C8: for non-ISO-like strings `safeParseDate` tries exactly the
fixed ordered layout list `yyyy-MM-dd`, `dd.MM.yyyy`, `MM/dd/yyyy`,
`dd/MM/yyyy`, `yyyy/MM/dd`, `yyyy-MM-dd HH:mm:ss`, `dd.MM.yyyy HH:mm:ss`
and returns the first successful parse, before the free-form native
fallback; ambiguous slash dates resolve as `MM/dd/yyyy` by list order. -/
theorem string_format_list (np : String → Option Int) :
    fmtList = [DateFmt.ymdDash, DateFmt.dmyDot, DateFmt.mdySlash, DateFmt.dmySlash,
      DateFmt.ymdSlash, DateFmt.ymdDashTime, DateFmt.dmyDotTime]
    ∧ (∀ s : String, jsContains (jsTrim s) 'T' = false →
        jsContains (jsTrim s) 'Z' = false →
        safeParseDate np (CellValue.str s)
          = if jsTrim s = "" then none else tryFormatsThenNative np (jsTrim s))
    ∧ tryFormats "01/02/2024" = some (msOfCivil 2024 1 2)
    ∧ parseFmt DateFmt.mdySlash "01/02/2024" = some (msOfCivil 2024 1 2)
    ∧ parseFmt DateFmt.dmySlash "01/02/2024" = some (msOfCivil 2024 2 1) := by
  refine ⟨rfl, ?_, by decide, by decide, by decide⟩
  intro s hT hZ
  by_cases hempty : s = ""
  · subst hempty
    simp [safeParseDate, cellTruthy, show jsTrim "" = "" from by decide]
  · by_cases htrim : jsTrim s = ""
    · simp [safeParseDate, cellTruthy, hempty, htrim]
    · simp [safeParseDate, cellTruthy, hempty, htrim, hT, hZ]

/-- C8 witness: the ambiguous slash date resolves through the parser as
January 2, 2024 (`MM/dd/yyyy` wins by list order). -/
theorem string_format_list_witness :
    safeParseDate noNativeParse (CellValue.str "01/02/2024")
      = some (msOfCivil 2024 1 2) := by
  have h := (string_format_list noNativeParse).2.1 "01/02/2024" (by decide) (by decide)
  rw [h]; decide

/-- Single-row data set with a fixed valid start date, used to exhibit
the clock sensitivity of `processExcelData`. -/
def dataAmbient : List RawRow :=
  [{ name := .str "A", status := .missing,
     startdatum := .str "2024-01-01", laufzeitInM := .num 12 }]

/-- C9 counterexample: two invocations of `processExcelData` with the
identical input rows produce different records when the ambient clock
(the internal `new Date()`) has moved by one day — the reference instant
is not part of the function's inputs. -/
theorem ambient_clock_counterexample :
    processExcelData noNativeParse dataAmbient (msOfCivil 2024 6 1)
      ≠ processExcelData noNativeParse dataAmbient (msOfCivil 2024 6 2) := by
  decide

/-- C9 (amended): normalization is deterministic only relative to the
ambient clock — with the internally observed instant fixed the result is
a pure function of the rows, but the source reads `new Date()` inside
`processExcelData` instead of taking a reference instant, so the same
rows at different clock instants can normalize to different records. -/
theorem normalization_deterministic_in_clock :
    (∀ (np : String → Option Int) (data : List RawRow) (n₁ n₂ : Int), n₁ = n₂ →
        processExcelData np data n₁ = processExcelData np data n₂)
    ∧ (∃ n₁ n₂ : Int,
        processExcelData noNativeParse dataAmbient n₁
          ≠ processExcelData noNativeParse dataAmbient n₂) :=
  ⟨fun _ _ _ _ h => by rw [h],
   ⟨msOfCivil 2024 6 1, msOfCivil 2024 6 2, by decide⟩⟩

/-- C9 witness: the determinism clause applied at a concrete instant. -/
theorem normalization_deterministic_in_clock_witness :
    processExcelData noNativeParse dataAmbient (msOfCivil 2024 6 1)
      = processExcelData noNativeParse dataAmbient (msOfCivil 2024 6 1) :=
  normalization_deterministic_in_clock.1 noNativeParse dataAmbient _ _ rfl

/-- C10: both parsers treat every falsy input as absent — the numeric
value 0 and the boolean false always parse to null, so the spreadsheet
serial 0 is never decoded as a calendar date. -/
theorem falsy_inputs_never_decoded (np : String → Option Int) :
    safeParseDate np (CellValue.num 0) = none
    ∧ safeParseDate np (CellValue.boolV false) = none
    ∧ parseExcelDate np (CellValue.num 0) = none
    ∧ parseExcelDate np (CellValue.boolV false) = none :=
  ⟨rfl, rfl, rfl, rfl⟩

end ContractPipeline
